import Mathlib

/-!
Verification of the module/service lifecycle orchestrator of
pkg/modules (modules.go, listener.go, dependencies.go).

The Go code is shallowly embedded: the engine's pure control flow
(Run's wiring loop, its empty-set early return, its final failure scan,
Shutdown, the listener's Failure callback, the register wrappers and the
static dependency table) is translated directly from the source.  The
dskit module manager and service manager the engine delegates to are not
part of the repository's files; their operations (registry map,
AddDependency, target resolution, factory invocation, StopAll,
AwaitAllStopped) are modelled from the specification, as marked on each
such definition.  Blocking calls are modelled with an explicit outcome:
`none` stands for a call that never returns, `some r` for a call that
returns `r`; a Go context is reduced to its optional deadline.
-/

namespace GrafanaModules

/-- Go error values, identified by their message (errors compared with
errors.Is are sentinel values; value equality models identity here). -/
structure Err where
  msg : String
deriving DecidableEq, Repr

/-- dskit modules.ErrStopProcess, the graceful-stop sentinel. -/
def errStopProcess : Err := ⟨"stop process"⟩

/-- context.DeadlineExceeded, what an expired context's Err() yields. -/
def ctxDeadlineExceeded : Err := ⟨"context deadline exceeded"⟩

/-- Modelled from the spec: the module manager's error for AddDependency on
an unregistered module (dskit code, not under src). -/
def errNoSuchModule : Err := ⟨"no such module"⟩

/-- Modelled from the spec: UnknownModuleError, resolution failing because a
target itself is unregistered (dskit code, not under src). -/
def errUnknownModule : Err := ⟨"unknown module"⟩

/-- Modelled from the spec: service-manager construction failing when it is
given no services (dskit code, not under src). -/
def errNoServices : Err := ⟨"no services"⟩

/-- DuplicateModuleError as the spec's registration contract names it. -/
def duplicateModuleError : Err := ⟨"duplicate module"⟩

/-- errors.Is over an optional error: true exactly when the error is the
given sentinel (errors.Is(nil, target) is false for non-nil targets). -/
def errorsIs (e : Option Err) (target : Err) : Bool := e = some target

/-- The message Error() renders: empty for a nil error (the Go code only
calls Error() on non-nil failure causes). -/
def errText : Option Err → String
  | some e => e.msg
  | none => ""

/-- dskit service states: New, Starting, Running, Stopping, Terminated,
Failed (the spec's Idle is dskit's New). -/
inductive SvcState
  | new
  | starting
  | running
  | stopping
  | terminated
  | failed
deriving DecidableEq, Repr

/-- A dskit service as the engine observes it: an identity (standing for
the Go pointer), its state and its FailureCase(). -/
structure Svc where
  id : Nat
  state : SvcState
  failureCase : Option Err
deriving DecidableEq, Repr

/-- A Go context reduced to what the embedding needs: an optional deadline.
context.Background() has none and is never canceled. -/
structure Ctx where
  deadline : Option Nat
deriving DecidableEq, Repr

/-- context.Background(): no deadline, never canceled. -/
def backgroundCtx : Ctx := ⟨none⟩

/-- The service manager over its services, together with the execution's
outcome: allStoppedAt is the time at which the last service reaches a
terminal state, none when the set never fully stops. -/
structure SvcManager where
  svcs : List Svc
  allStoppedAt : Option Nat
deriving DecidableEq, Repr

/-- Modelled from the spec (AwaitAllStopped): blocks until every service is
terminal or until the context is canceled, returning a timeout error in the
latter case.  Result none = the call never returns; some none = returns
nil; some (some e) = returns the error e. -/
def awaitStoppedRes (ctx : Ctx) (m : SvcManager) : Option (Option Err) :=
  match m.allStoppedAt, ctx.deadline with
  | some _, none => some none
  | some t, some d => if d < t then some (some ctxDeadlineExceeded) else some none
  | none, none => none
  | none, some _ => some (some ctxDeadlineExceeded)

/-- Modelled from the spec (StopAll): the stop signal delivered to one
service; a service already Stopping or terminal ignores it, an idle one
terminates at once, a started one begins stopping. -/
def stopSignal (s : Svc) : Svc :=
  match s.state with
  | SvcState.new => { s with state := SvcState.terminated }
  | SvcState.starting => { s with state := SvcState.stopping }
  | SvcState.running => { s with state := SvcState.stopping }
  | SvcState.stopping => s
  | SvcState.terminated => s
  | SvcState.failed => s

/-- Modelled from the spec (StopAll): broadcast the stop signal to every
service of the manager; non-blocking. -/
def stopAll (m : SvcManager) : SvcManager :=
  { m with svcs := m.svcs.map stopSignal }

/-- Except values rendered as sums, to derive decidable equality. -/
def exceptToSum : Except Err Svc → Sum Err Svc
  | Except.error e => Sum.inl e
  | Except.ok v => Sum.inr v

instance : DecidableEq (Except Err Svc) := fun a b =>
  decidable_of_iff (exceptToSum a = exceptToSum b)
    (by cases a <;> cases b <;> simp [exceptToSum])

/-- A registry entry: the factory (modelled by the value it returns when
invoked), user visibility, and the module's dependency edges. -/
structure ModEntry where
  fn : Except Err Svc
  visible : Bool
  deps : List String
deriving DecidableEq, Repr

/-- The module manager's registry: a name-keyed map, as an association
list with unique keys maintained by mapSet. -/
abbrev Registry := List (String × ModEntry)

/-- dskit Manager.IsModuleRegistered: is the name a key of the registry. -/
def isModuleRegistered (reg : Registry) (n : String) : Bool :=
  (reg.lookup n).isSome

/-- Go map assignment m[n] = e: replaces the entry when the key is present,
appends it otherwise. -/
def mapSet : Registry → String → ModEntry → Registry
  | [], n, e => [(n, e)]
  | (k, v) :: r, n, e =>
      if k = n then (n, e) :: r else (k, v) :: mapSet r n e

/-- Modelled from the spec: the underlying manager's registration (dskit
code, not under src) — a map assignment of a fresh entry; the src wrapper
around it returns nothing, so no error can surface. -/
def registerModuleRaw (reg : Registry) (n : String) (fn : Except Err Svc)
    (visible : Bool) : Registry :=
  mapSet reg n ⟨fn, visible, []⟩

/-- Follows the words of the spec, for comparison with the code: the
registration contract that fails with DuplicateModuleError when the name
is already registered. -/
def registerSpec (reg : Registry) (n : String) (fn : Except Err Svc)
    (visible : Bool) : Except Err Registry :=
  if isModuleRegistered reg n then Except.error duplicateModuleError
  else Except.ok (mapSet reg n ⟨fn, visible, []⟩)

/-- Modelled from the spec: dskit Manager.AddDependency — fails when the
module is not registered, otherwise appends the edges to its entry. -/
def addDependency (reg : Registry) (n : String) (ds : List String) :
    Except Err Registry :=
  match reg.lookup n with
  | none => Except.error errNoSuchModule
  | some e => Except.ok (mapSet reg n ⟨e.fn, e.visible, e.deps ++ ds⟩)

/-- The dependency list stored for a module (empty when unregistered). -/
def depsOf (reg : Registry) (n : String) : List String :=
  match reg.lookup n with
  | none => []
  | some e => e.deps

/-- The static dependency table of dependencies.go. -/
def dependencyMap : List (String × List String) :=
  [ ("memberlistkv", ["instrumentation-server"]),
    ("search-server-ring", ["instrumentation-server", "memberlistkv"]),
    ("grafana-apiserver", ["instrumentation-server"]),
    ("storage-server", ["instrumentation-server", "search-server-ring"]),
    ("zanzana-server", ["instrumentation-server"]),
    ("search-server-distributor",
      ["instrumentation-server", "memberlistkv", "search-server-ring"]),
    ("core", []),
    ("all", ["core"]),
    ("frontend-server", []),
    ("operator", ["instrumentation-server"]) ]

/-- Run's dependency-wiring loop (modules.go): for each table entry, skip
it when its module is unregistered, otherwise AddDependency, propagating
any error. -/
def wireDependencies (reg : Registry) :
    List (String × List String) → Except Err Registry
  | [] => Except.ok reg
  | (modName, ds) :: rest =>
      if isModuleRegistered reg modName then
        match addDependency reg modName ds with
        | Except.error e => Except.error e
        | Except.ok reg2 => wireDependencies reg2 rest
      else
        wireDependencies reg rest

/-- Modelled from the spec: the dependency edges of a module that lead to
registered modules (edges to unregistered modules are dropped). -/
def registeredDeps (reg : Registry) (n : String) : List String :=
  (depsOf reg n).filter (fun d => isModuleRegistered reg d)

/-- Append, keeping only names not already present (order-preserving set
union used by the closure computation). -/
def addMissing (acc : List String) (xs : List String) : List String :=
  xs.foldl (fun a x => if x ∈ a then a else a ++ [x]) acc

/-- Modelled from the spec: iterate closure expansion until a fixed point,
with fuel bounding the number of rounds. -/
def closureIter (reg : Registry) : Nat → List String → List String
  | 0, acc => acc
  | Nat.succ fuel, acc =>
      let nxt := addMissing acc (acc.foldl (fun l n => l ++ registeredDeps reg n) [])
      if nxt = acc then acc else closureIter reg fuel nxt

/-- Modelled from the spec: target resolution — fails when a target itself
is unregistered, otherwise expands each target to its transitive
dependency closure restricted to registered modules. -/
def resolveTargets (reg : Registry) (targets : List String) :
    Except Err (List String) :=
  if targets.all (fun t => isModuleRegistered reg t) then
    Except.ok (closureIter reg reg.length (addMissing [] targets))
  else
    Except.error errUnknownModule

/-- Modelled from the spec: invoke the factory of each resolved module
once, building the name-to-service map; a factory's error aborts. -/
def invokeFactories (reg : Registry) : List String → Except Err (List (String × Svc))
  | [] => Except.ok []
  | n :: rest =>
      match reg.lookup n with
      | none => Except.error errUnknownModule
      | some e =>
          match e.fn with
          | Except.error err => Except.error err
          | Except.ok svc =>
              match invokeFactories reg rest with
              | Except.error err => Except.error err
              | Except.ok l => Except.ok ((n, svc) :: l)

/-- The factories actually invoked for a resolved list of names, in order,
stopping with the factory whose invocation errors. -/
def invokedList (reg : Registry) : List String → List String
  | [] => []
  | n :: rest =>
      match reg.lookup n with
      | none => []
      | some e =>
          match e.fn with
          | Except.error _ => [n]
          | Except.ok _ => n :: invokedList reg rest

/-- Modelled from the spec: dskit InitModuleServices — resolve the targets,
then instantiate one service per resolved module. -/
def initModuleServices (reg : Registry) (targets : List String) :
    Except Err (List (String × Svc)) :=
  match resolveTargets reg targets with
  | Except.error e => Except.error e
  | Except.ok names => invokeFactories reg names

/-- The names whose factories Run has invoked by the time
InitModuleServices returns. -/
def factoriesInvokedFor (reg : Registry) (targets : List String) : List String :=
  match resolveTargets reg targets with
  | Except.error _ => []
  | Except.ok names => invokedList reg names

/-- Modelled from the spec: service-manager construction over the concrete
services; fails when given none. -/
def newManager (svcs : List Svc) : Except Err (List Svc) :=
  if svcs.isEmpty then Except.error errNoServices else Except.ok svcs

/-- The engine (struct service of modules.go): requested targets, the
module manager's registry, the optional service manager, and the
name-to-service map of the current run. -/
structure EngineSt where
  targets : List String
  moduleManager : Registry
  serviceManager : Option SvcManager
  serviceMap : List (String × Svc)
deriving DecidableEq, Repr

/-- New(targets): fresh engine with an empty registry and no manager. -/
def engineNew (targets : List String) : EngineSt := ⟨targets, [], none, []⟩

/-- RegisterModule: delegate to the module manager (user-visible). The Go
wrapper returns nothing; registration has no error path. -/
def RegisterModule (e : EngineSt) (n : String) (fn : Except Err Svc) : EngineSt :=
  { e with moduleManager := registerModuleRaw e.moduleManager n fn true }

/-- RegisterInvisibleModule: delegate with the UserInvisibleModule option. -/
def RegisterInvisibleModule (e : EngineSt) (n : String) (fn : Except Err Svc) :
    EngineSt :=
  { e with moduleManager := registerModuleRaw e.moduleManager n fn false }

/-- IsModuleEnabled: stringsContain(m.targets, name). The util helper is
not under src; modelled from the spec as membership in the target slice. -/
def stringsContain (values : List String) (value : String) : Bool :=
  values.contains value

/-- IsModuleEnabled of modules.go: a lookup against the original target
list. -/
def IsModuleEnabled (e : EngineSt) (n : String) : Bool :=
  stringsContain e.targets n

/-- What one Shutdown call did: its result (none = it never returned),
the engine afterwards, and whether it invoked StopAsync and AwaitStopped. -/
structure ShutdownOut where
  res : Option (Option Err)
  engine : EngineSt
  stopAsyncInvoked : Bool
  awaitInvoked : Bool
deriving DecidableEq, Repr

/-- Shutdown of modules.go: with no service manager, log and return nil at
once; otherwise StopAsync (unconditionally, on every call) and then return
AwaitStopped(ctx). -/
def Shutdown (e : EngineSt) (ctx : Ctx) (reason : String) : ShutdownOut :=
  match e.serviceManager with
  | none => ⟨some none, e, false, false⟩
  | some m =>
      let m2 := stopAll m
      ⟨awaitStoppedRes ctx m2, { e with serviceManager := some m2 }, true, true⟩

/-- Log levels used by the listener. -/
inductive LogLevel
  | debug
  | info
  | warn
  | error
deriving DecidableEq, Repr

/-- One log line: level, message, and the module attribute. -/
structure LogEntry where
  level : LogLevel
  msg : String
  module : String
deriving DecidableEq, Repr

/-- The module log line of serviceListener.Failure: scan the service map
for the failed service; a sentinel cause is logged at info level, any
other at error level; with no matching entry, module is unknown. -/
def moduleLogFor (serviceMap : List (String × Svc)) (svc : Svc) : LogEntry :=
  match serviceMap.find? (fun p => p.2.id = svc.id) with
  | some p =>
      if errorsIs svc.failureCase errStopProcess then
        ⟨LogLevel.info, "Received stop signal via return error", p.1⟩
      else
        ⟨LogLevel.error, "Module failed", p.1⟩
  | none => ⟨LogLevel.error, "Module failed", "unknown"⟩

/-- What one Failure callback did: the context and reason of the Shutdown
call it made, the engine afterwards, and the log lines it then wrote
(none when the Shutdown call never returned). -/
structure FailureOut where
  shutdownCtx : Ctx
  shutdownReason : String
  engine : EngineSt
  logs : Option (List LogEntry)
deriving DecidableEq, Repr

/-- serviceListener.Failure of listener.go: shut everything down with a
background context and reason FailureCase().Error(); log an error when
that Shutdown call errors; then log which module failed. -/
def listenerFailure (e : EngineSt) (svc : Svc) : FailureOut :=
  let reason := errText svc.failureCase
  let sd := Shutdown e backgroundCtx reason
  match sd.res with
  | none => ⟨backgroundCtx, reason, sd.engine, none⟩
  | some r =>
      let sdLogs : List LogEntry :=
        match r with
        | some _ => [⟨LogLevel.error, "Failed to stop all modules", ""⟩]
        | none => []
      ⟨backgroundCtx, reason, sd.engine, some (sdLogs ++ [moduleLogFor e.serviceMap svc])⟩

/-- The failed-state bucket of ServicesByState(). -/
def failedOf (svcs : List Svc) : List Svc :=
  svcs.filter (fun s => s.state == SvcState.failed)

/-- Run's final scan (modules.go): return the first failure case that is
not ErrStopProcess; nil when the loop finds none. -/
def runReturnScan : List Svc → Option Err
  | [] => none
  | f :: rest =>
      if errorsIs f.failureCase errStopProcess then runReturnScan rest
      else f.failureCase

/-- Follows the words of the spec, for comparison with the code: the first
failure cause among the listed services that is not the graceful-stop
sentinel; nil when every failure is graceful. -/
def specFirstNonGracefulCause : List Svc → Option Err
  | [] => none
  | s :: rest =>
      match s.failureCase with
      | none => specFirstNonGracefulCause rest
      | some c =>
          if c = errStopProcess then specFirstNonGracefulCause rest else some c

/-- The await step inside Run: AwaitStopped with context.Background(), the
never-canceled context of modules.go line 120. -/
def runAwaitStep (m : SvcManager) : Option (Option Err) :=
  awaitStoppedRes backgroundCtx m

/-- What one Run call did: its result (none = it never returned), the
engine afterwards, which factories were invoked, and whether a service
manager was constructed, a listener attached, and the services started. -/
structure RunOut where
  res : Option (Option Err)
  engine : EngineSt
  factoriesInvoked : List String
  managerConstructed : Bool
  listenerAttached : Bool
  startInvoked : Bool
deriving DecidableEq, Repr

/-- Run of modules.go, parametrized by the execution outcome: exec maps
the freshly constructed services to the manager state once the concurrent
run has played out (final service states and the time, if any, at which
all of them stopped).  Control flow follows the source: wire dependencies,
InitModuleServices, return nil on an empty service map, NewManager, the
(unreachable) second emptiness check, attach the listener, StartAsync,
await with a background context, then scan the failed services. -/
def RunM (e : EngineSt) (ctx : Ctx) (exec : List Svc → SvcManager) : RunOut :=
  match wireDependencies e.moduleManager dependencyMap with
  | Except.error err => ⟨some (some err), e, [], false, false, false⟩
  | Except.ok reg =>
      match initModuleServices reg e.targets with
      | Except.error err =>
          ⟨some (some err), { e with moduleManager := reg, serviceMap := [] },
            factoriesInvokedFor reg e.targets, false, false, false⟩
      | Except.ok smap =>
          if smap.isEmpty then
            ⟨some none, { e with moduleManager := reg, serviceMap := smap },
              [], false, false, false⟩
          else
            match newManager (smap.map (fun p => p.2)) with
            | Except.error err =>
                ⟨some (some err), { e with moduleManager := reg, serviceMap := smap },
                  smap.map (fun p => p.1), false, false, false⟩
            | Except.ok ready =>
                let m0 := exec ready
                let e3 : EngineSt := ⟨e.targets, reg, some m0, smap⟩
                if smap.isEmpty then
                  ⟨(match ctx.deadline with | none => none | some _ => some none),
                    e3, smap.map (fun p => p.1), true, false, false⟩
                else
                  match runAwaitStep m0 with
                  | none =>
                      ⟨none, e3, smap.map (fun p => p.1), true, true, true⟩
                  | some (some err) =>
                      ⟨some (some err), e3, smap.map (fun p => p.1), true, true, true⟩
                  | some none =>
                      ⟨some (runReturnScan (failedOf m0.svcs)), e3,
                        smap.map (fun p => p.1), true, true, true⟩

/-- The edges of an adjacency table, flattened to pairs. -/
def edgePairs (tbl : List (String × List String)) : List (String × String) :=
  tbl.foldr (fun p acc => (p.2.map (fun d => (p.1, d))) ++ acc) []

/-- An edge of the adjacency table: the table maps a to a list holding b. -/
def edgeIn (tbl : List (String × List String)) (a b : String) : Prop :=
  ∃ ds, (a, ds) ∈ tbl ∧ b ∈ ds

/-- A nonempty chain of edges of the relation E. -/
inductive DepPath (E : String → String → Prop) : String → String → Prop
  | single : ∀ {a b}, E a b → DepPath E a b
  | chain : ∀ {a b c}, E a b → DepPath E b c → DepPath E a c

/-- The static table's edges restricted to a subset of module names. -/
def restrictedEdge (S : List String) (a b : String) : Prop :=
  a ∈ S ∧ b ∈ S ∧ edgeIn dependencyMap a b

/-- A topological height for the concrete dependency table: every edge of
the table strictly decreases it. -/
def moduleRank (n : String) : Nat :=
  if n = "storage-server" then 3
  else if n = "search-server-distributor" then 3
  else if n = "search-server-ring" then 2
  else if n = "memberlistkv" then 1
  else if n = "grafana-apiserver" then 1
  else if n = "zanzana-server" then 1
  else if n = "all" then 1
  else if n = "operator" then 1
  else 0

/-- Inputs used by the closed witness and counterexample theorems. -/
def svcA : Svc := ⟨1, SvcState.new, none⟩

def svcB : Svc := ⟨2, SvcState.new, none⟩

def svcFailedBoom : Svc := ⟨3, SvcState.failed, some ⟨"boom"⟩⟩

def svcFailedStop : Svc := ⟨4, SvcState.failed, some errStopProcess⟩

def svcRunning : Svc := ⟨5, SvcState.running, none⟩

def mgrRunning : SvcManager := ⟨[svcRunning], some 5⟩

def engineWithMgr : EngineSt := ⟨["core"], [], some mgrRunning, []⟩

def engineNoMgr : EngineSt := engineNew ["core"]

def engineFail : EngineSt := ⟨["core"], [], some mgrRunning, [("core", svcFailedBoom)]⟩

def execStopsAt (t : Nat) : List Svc → SvcManager := fun svcs => ⟨svcs, some t⟩

/-- Demo registry with one module registered under the name core. -/
def regOne : Registry := [("core", ⟨Except.ok svcA, true, []⟩)]

/-- Demo service list with one graceful failure, one real failure and one
running service. -/
def svcsDemo : List Svc := [svcFailedStop, svcFailedBoom, svcRunning]

/-- Demo error value. -/
def boomErr : Err := ⟨"boom"⟩

theorem lookup_mapSet_self (reg : Registry) (n : String) (e : ModEntry) :
    (mapSet reg n e).lookup n = some e := by
  induction reg with
  | nil => simp [mapSet, List.lookup]
  | cons p r ih =>
      obtain ⟨k, v⟩ := p
      by_cases h : k = n
      · subst h
        simp [mapSet, List.lookup]
      · simp only [mapSet, if_neg h, List.lookup]
        have hne : (n == k) = false := by
          simp [beq_iff_eq]
          exact fun hx => h hx.symm
        rw [hne]
        exact ih

theorem lookup_mapSet_ne (reg : Registry) (n k : String) (e : ModEntry)
    (h : k ≠ n) : (mapSet reg n e).lookup k = reg.lookup k := by
  induction reg with
  | nil =>
      simp only [mapSet, List.lookup]
      have hne : (k == n) = false := by simp [beq_iff_eq]; exact h
      rw [hne]
  | cons p r ih =>
      obtain ⟨k0, v⟩ := p
      by_cases h0 : k0 = n
      · subst h0
        simp only [mapSet, if_pos rfl, List.lookup]
        have hne : (k == k0) = false := by simp [beq_iff_eq]; exact h
        rw [hne]
      · simp only [mapSet, if_neg h0, List.lookup]
        by_cases hk : k = k0
        · subst hk
          simp
        · have hne : (k == k0) = false := by simp [beq_iff_eq]; exact hk
          rw [hne]
          exact ih

theorem mapSet_length (reg : Registry) (n : String) (e : ModEntry)
    (h : isModuleRegistered reg n = true) :
    (mapSet reg n e).length = reg.length := by
  induction reg with
  | nil => simp [isModuleRegistered, List.lookup] at h
  | cons p r ih =>
      obtain ⟨k, v⟩ := p
      by_cases hk : k = n
      · subst hk
        simp [mapSet]
      · simp only [mapSet, if_neg hk, List.length_cons]
        have hr : isModuleRegistered r n = true := by
          simp only [isModuleRegistered, List.lookup] at h ⊢
          have hne : (n == k) = false := by
            simp [beq_iff_eq]
            exact fun hx => hk hx.symm
          rwa [hne] at h
        rw [ih hr]

theorem addDependency_of_registered (reg : Registry) (n : String) (ds : List String)
    (h : isModuleRegistered reg n = true) :
    ∃ e, reg.lookup n = some e ∧
      addDependency reg n ds =
        Except.ok (mapSet reg n ⟨e.fn, e.visible, e.deps ++ ds⟩) := by
  simp only [isModuleRegistered, Option.isSome_iff_exists] at h
  obtain ⟨e, he⟩ := h
  exact ⟨e, he, by simp [addDependency, he]⟩

theorem isRegistered_mapSet (reg : Registry) (n k : String) (e : ModEntry)
    (hn : isModuleRegistered reg n = true) :
    isModuleRegistered (mapSet reg n e) k = isModuleRegistered reg k := by
  by_cases h : k = n
  · subst h
    simp only [isModuleRegistered, lookup_mapSet_self]
    simp only [isModuleRegistered] at hn
    rw [hn]
    rfl
  · simp only [isModuleRegistered, lookup_mapSet_ne reg n k e h]

theorem wireDependencies_spec (tbl : List (String × List String)) :
    ∀ reg : Registry, (tbl.map Prod.fst).Nodup →
      ∃ reg2, wireDependencies reg tbl = Except.ok reg2
        ∧ (∀ k, k ∉ tbl.map Prod.fst → reg2.lookup k = reg.lookup k)
        ∧ (∀ k, isModuleRegistered reg2 k = isModuleRegistered reg k)
        ∧ (∀ modName ds, (modName, ds) ∈ tbl →
            isModuleRegistered reg modName = true →
            depsOf reg2 modName = depsOf reg modName ++ ds) := by
  induction tbl with
  | nil =>
      intro reg _
      exact ⟨reg, rfl, fun _ _ => rfl, fun _ => rfl, by simp⟩
  | cons p rest ih =>
      intro reg hnd
      obtain ⟨m0, d0⟩ := p
      simp only [List.map_cons, List.nodup_cons] at hnd
      obtain ⟨hnd0, hndr⟩ := hnd
      by_cases hreg0 : isModuleRegistered reg m0 = true
      · obtain ⟨e0, he0, hadd⟩ := addDependency_of_registered reg m0 d0 hreg0
        obtain ⟨reg2, hok, hpres, hisreg, hdeps⟩ :=
          ih (mapSet reg m0 ⟨e0.fn, e0.visible, e0.deps ++ d0⟩) hndr
        have hwire : wireDependencies reg ((m0, d0) :: rest) =
            wireDependencies (mapSet reg m0 ⟨e0.fn, e0.visible, e0.deps ++ d0⟩) rest := by
          simp [wireDependencies, hreg0, hadd]
        refine ⟨reg2, by rw [hwire]; exact hok, ?_, ?_, ?_⟩
        · intro k hk
          simp only [List.map_cons, List.mem_cons] at hk
          push_neg at hk
          rw [hpres k hk.2, lookup_mapSet_ne reg m0 k _ hk.1]
        · intro k
          rw [hisreg k, isRegistered_mapSet reg m0 k _ hreg0]
        · intro modName ds hmem hregm
          rcases List.mem_cons.mp hmem with hhd | htl
          · obtain ⟨h1, h2⟩ := Prod.mk.injEq modName ds m0 d0 ▸ hhd
            subst h1
            subst h2
            have hl2 : reg2.lookup modName =
                (mapSet reg modName ⟨e0.fn, e0.visible, e0.deps ++ ds⟩).lookup modName :=
              hpres modName hnd0
            rw [lookup_mapSet_self] at hl2
            simp only [depsOf, hl2, he0]
          · have hmk : modName ∈ rest.map Prod.fst := by
              exact List.mem_map.mpr ⟨(modName, ds), htl, rfl⟩
            have hne : modName ≠ m0 := fun hx => hnd0 (hx ▸ hmk)
            have hregm1 : isModuleRegistered
                (mapSet reg m0 ⟨e0.fn, e0.visible, e0.deps ++ d0⟩) modName = true := by
              rw [isRegistered_mapSet reg m0 modName _ hreg0]
              exact hregm
            have hd1 := hdeps modName ds htl hregm1
            have hlook : (mapSet reg m0 ⟨e0.fn, e0.visible, e0.deps ++ d0⟩).lookup modName =
                reg.lookup modName := lookup_mapSet_ne reg m0 modName _ hne
            simp only [depsOf, hlook] at hd1
            exact hd1
      · have hwire : wireDependencies reg ((m0, d0) :: rest) =
            wireDependencies reg rest := by
          simp only [wireDependencies]
          rw [if_neg hreg0]
        obtain ⟨reg2, hok, hpres, hisreg, hdeps⟩ := ih reg hndr
        refine ⟨reg2, by rw [hwire]; exact hok, ?_, ?_, ?_⟩
        · intro k hk
          simp only [List.map_cons, List.mem_cons] at hk
          push_neg at hk
          exact hpres k hk.2
        · exact hisreg
        · intro modName ds hmem hregm
          rcases List.mem_cons.mp hmem with hhd | htl
          · obtain ⟨h1, h2⟩ := Prod.mk.injEq modName ds m0 d0 ▸ hhd
            subst h1
            exact absurd hregm hreg0
          · exact hdeps modName ds htl hregm

theorem lookup_none_of_not_registered (reg : Registry) (n : String)
    (h : isModuleRegistered reg n = false) : reg.lookup n = none := by
  cases hcase : reg.lookup n with
  | none => rfl
  | some v =>
      simp only [isModuleRegistered, hcase] at h
      simp at h

theorem stopSignal_idem (s : Svc) : stopSignal (stopSignal s) = stopSignal s := by
  cases h : s.state <;> simp [stopSignal, h]

theorem stopAll_idem (m : SvcManager) : stopAll (stopAll m) = stopAll m := by
  simp only [stopAll, List.map_map]
  congr 1
  exact List.map_congr_left fun s _ => stopSignal_idem s

theorem mem_edgePairs_iff (tbl : List (String × List String)) (a b : String) :
    (a, b) ∈ edgePairs tbl ↔ edgeIn tbl a b := by
  induction tbl with
  | nil => simp [edgePairs, edgeIn]
  | cons p rest ih =>
      obtain ⟨m, ds⟩ := p
      simp only [edgePairs, List.foldr_cons, List.mem_append, List.mem_map,
        edgeIn, List.mem_cons, Prod.mk.injEq] at ih ⊢
      constructor
      · rintro (⟨d, hd, hm, hb⟩ | h)
        · subst hm
          subst hb
          exact ⟨ds, Or.inl ⟨rfl, rfl⟩, hd⟩
        · obtain ⟨ds2, hmem, hb⟩ := ih.mp h
          exact ⟨ds2, Or.inr hmem, hb⟩
      · rintro ⟨ds2, hmem | hmem, hb⟩
        · obtain ⟨ha, hds⟩ := hmem
          subst ha
          subst hds
          exact Or.inl ⟨b, hb, rfl, rfl⟩
        · exact Or.inr (ih.mpr ⟨ds2, hmem, hb⟩)

theorem edgePairs_rank : ∀ p ∈ edgePairs dependencyMap,
    moduleRank p.2 < moduleRank p.1 := by
  decide

theorem edgeIn_rank_lt (a b : String) (h : edgeIn dependencyMap a b) :
    moduleRank b < moduleRank a :=
  edgePairs_rank (a, b) ((mem_edgePairs_iff dependencyMap a b).mpr h)

theorem depPath_rank_lt (E : String → String → Prop)
    (hE : ∀ a b, E a b → moduleRank b < moduleRank a) :
    ∀ a b, DepPath E a b → moduleRank b < moduleRank a := by
  intro a b h
  induction h with
  | single hab => exact hE _ _ hab
  | chain hab _ ih => exact lt_trans ih (hE _ _ hab)

theorem runReturnScan_eq_spec : ∀ l : List Svc,
    (∀ s, s ∈ l → (s.failureCase).isSome = true) →
    runReturnScan l = specFirstNonGracefulCause l := by
  intro l
  induction l with
  | nil => intro _; rfl
  | cons s rest ih =>
      intro h
      have hs := h s (List.mem_cons_self s rest)
      rw [Option.isSome_iff_exists] at hs
      obtain ⟨c, hc⟩ := hs
      by_cases hcs : c = errStopProcess
      · subst hcs
        simp only [runReturnScan, specFirstNonGracefulCause, hc, errorsIs]
        simp only [decide_true_eq_true, if_true, decide_eq_true_eq]
        exact ih fun t ht => h t (List.mem_cons_of_mem s ht)
      · simp only [runReturnScan, specFirstNonGracefulCause, hc, errorsIs]
        simp only [decide_eq_true_eq, Option.some.injEq]
        rw [if_neg (by simp [hcs]), if_neg hcs]

theorem runReturnScan_ne_sentinel : ∀ l : List Svc,
    runReturnScan l ≠ some errStopProcess := by
  intro l
  induction l with
  | nil => simp [runReturnScan]
  | cons s rest ih =>
      by_cases h : errorsIs s.failureCase errStopProcess = true
      · simpa [runReturnScan, h] using ih
      · have h2 : ¬ s.failureCase = some errStopProcess := by
          simpa [errorsIs] using h
        simp only [Bool.not_eq_true] at h
        simp [runReturnScan, h, h2]

theorem runReturnScan_all_sentinel : ∀ l : List Svc,
    (∀ s, s ∈ l → errorsIs s.failureCase errStopProcess = true) →
    runReturnScan l = none := by
  intro l
  induction l with
  | nil => intro _; rfl
  | cons s rest ih =>
      intro h
      have hs := h s (List.mem_cons_self s rest)
      simp only [runReturnScan, hs, if_true]
      exact ih fun t ht => h t (List.mem_cons_of_mem s ht)

theorem stringsContain_iff (l : List String) (x : String) :
    stringsContain l x = true ↔ x ∈ l := by
  simp [stringsContain]

theorem listenerFailure_reason (e : EngineSt) (svc : Svc) :
    (listenerFailure e svc).shutdownReason = errText svc.failureCase := by
  unfold listenerFailure
  cases hres : (Shutdown e backgroundCtx (errText svc.failureCase)).res with
  | none => simp [hres]
  | some r => simp [hres]

theorem listenerFailure_ctx (e : EngineSt) (svc : Svc) :
    (listenerFailure e svc).shutdownCtx = backgroundCtx := by
  unfold listenerFailure
  cases hres : (Shutdown e backgroundCtx (errText svc.failureCase)).res with
  | none => simp [hres]
  | some r => simp [hres]

theorem listenerFailure_engine (e : EngineSt) (svc : Svc) :
    (listenerFailure e svc).engine =
      (Shutdown e backgroundCtx (errText svc.failureCase)).engine := by
  unfold listenerFailure
  cases hres : (Shutdown e backgroundCtx (errText svc.failureCase)).res with
  | none => simp [hres]
  | some r => simp [hres]

theorem listenerFailure_logs_mem (e : EngineSt) (svc : Svc) (l : List LogEntry)
    (h : (listenerFailure e svc).logs = some l) :
    moduleLogFor e.serviceMap svc ∈ l := by
  simp only [listenerFailure] at h
  cases hres : (Shutdown e backgroundCtx (errText svc.failureCase)).res with
  | none => simp [hres] at h
  | some r =>
      cases r with
      | none =>
          simp only [hres, Option.some.injEq] at h
          subst h
          simp
      | some err =>
          simp only [hres, Option.some.injEq] at h
          subst h
          simp

/-- C1: after Run has awaited all services, the final scan over the
services left in Failed state returns the first failure cause that is not
the graceful-stop sentinel ErrStopProcess; when every failed service
failed with the sentinel (in particular when none failed) it returns nil,
and the sentinel itself never surfaces as the scan's result. -/
theorem C1_run_failure_scan (svcs : List Svc)
    (hwf : ∀ s, s ∈ failedOf svcs → (s.failureCase).isSome = true) :
    runReturnScan (failedOf svcs) = specFirstNonGracefulCause (failedOf svcs)
    ∧ runReturnScan (failedOf svcs) ≠ some errStopProcess
    ∧ ((∀ s, s ∈ failedOf svcs → errorsIs s.failureCase errStopProcess = true) →
        runReturnScan (failedOf svcs) = none) :=
  ⟨runReturnScan_eq_spec (failedOf svcs) hwf,
   runReturnScan_ne_sentinel (failedOf svcs),
   fun h => runReturnScan_all_sentinel (failedOf svcs) h⟩

/-- Witness for C1 at a concrete service list with one graceful and one
real failure. -/
theorem C1_run_failure_scan_witness :
    runReturnScan (failedOf svcsDemo) = specFirstNonGracefulCause (failedOf svcsDemo)
    ∧ runReturnScan (failedOf svcsDemo) ≠ some errStopProcess
    ∧ ((∀ s, s ∈ failedOf svcsDemo → errorsIs s.failureCase errStopProcess = true) →
        runReturnScan (failedOf svcsDemo) = none) :=
  C1_run_failure_scan svcsDemo (by decide)

/-- C2 counterexample: a second Shutdown call also invokes the StopAsync
broadcast (the code has no only-first guard), and a Shutdown call made
when no service manager was ever constructed returns nil immediately
without waiting on AwaitStopped — both contrary to the claim. -/
theorem C2_counterexample :
    (Shutdown (Shutdown engineWithMgr backgroundCtx ("r")).engine backgroundCtx
        ("r")).stopAsyncInvoked = true
    ∧ (Shutdown engineNoMgr backgroundCtx ("r")).awaitInvoked = false
    ∧ (Shutdown engineNoMgr backgroundCtx ("r")).res = some none := by
  refine ⟨rfl, rfl, rfl⟩

/-- C2 as amended: every Shutdown call with a constructed manager (not
only the first) invokes StopAsync; the broadcast is idempotent on the
manager state, so a repeated call returns the same result and leaves the
engine unchanged, and every such call waits on AwaitStopped(ctx) and
returns its result; a call made when no service manager was ever
constructed returns nil immediately without waiting. -/
theorem C2_shutdown_amended (e : EngineSt) (ctx : Ctx) (r1 r2 : String) :
    (e.serviceManager = none → Shutdown e ctx r1 = ⟨some none, e, false, false⟩)
    ∧ (∀ m, e.serviceManager = some m →
        (Shutdown e ctx r1).stopAsyncInvoked = true
        ∧ (Shutdown e ctx r1).awaitInvoked = true
        ∧ (Shutdown e ctx r1).res = awaitStoppedRes ctx (stopAll m)
        ∧ Shutdown (Shutdown e ctx r1).engine ctx r2 = Shutdown e ctx r1) := by
  constructor
  · intro hn
    obtain ⟨t, mm, sm, smap⟩ := e
    simp only at hn
    subst hn
    rfl
  · intro m hm
    obtain ⟨t, mm, sm, smap⟩ := e
    simp only at hm
    subst hm
    refine ⟨rfl, rfl, rfl, ?_⟩
    simp [Shutdown, stopAll_idem]

/-- C3: the listener's failure callback invokes the engine's Shutdown with
reason equal to the failed service's failure cause, classifies a sentinel
cause at info level and any other at error level, resolves the module
name by scanning the service map, and logs module unknown when no entry
of the map matches the failed service. -/
theorem C3_listener_failure (e : EngineSt) (svc : Svc) (c : Err)
    (hc : svc.failureCase = some c) :
    (listenerFailure e svc).shutdownReason = c.msg
    ∧ (listenerFailure e svc).shutdownCtx = backgroundCtx
    ∧ (listenerFailure e svc).engine = (Shutdown e backgroundCtx c.msg).engine
    ∧ (∀ modName s, e.serviceMap.find? (fun p => p.2.id = svc.id) = some (modName, s) →
        moduleLogFor e.serviceMap svc =
          (if c = errStopProcess then
            ⟨LogLevel.info, "Received stop signal via return error", modName⟩
          else ⟨LogLevel.error, "Module failed", modName⟩))
    ∧ (e.serviceMap.find? (fun p => p.2.id = svc.id) = none →
        moduleLogFor e.serviceMap svc = ⟨LogLevel.error, "Module failed", "unknown"⟩)
    ∧ (∀ l, (listenerFailure e svc).logs = some l →
        moduleLogFor e.serviceMap svc ∈ l) := by
  have het : errText svc.failureCase = c.msg := by rw [hc]; rfl
  refine ⟨?_, listenerFailure_ctx e svc, ?_, ?_, ?_,
    fun l hl => listenerFailure_logs_mem e svc l hl⟩
  · rw [listenerFailure_reason, het]
  · rw [listenerFailure_engine, het]
  · intro modName s hfind
    unfold moduleLogFor
    rw [hfind]
    by_cases hcs : c = errStopProcess
    · subst hcs
      have hb : errorsIs svc.failureCase errStopProcess = true := by
        simp [errorsIs, hc]
      simp [hb]
    · have hb : errorsIs svc.failureCase errStopProcess = false := by
        simp [errorsIs, hc, hcs]
      simp [hb, hcs]
  · intro hfind
    unfold moduleLogFor
    rw [hfind]

/-- Witness for C3 at a concrete failed service matched by the map. -/
theorem C3_listener_failure_witness :
    (listenerFailure engineFail svcFailedBoom).shutdownReason = boomErr.msg
    ∧ (listenerFailure engineFail svcFailedBoom).shutdownCtx = backgroundCtx
    ∧ (listenerFailure engineFail svcFailedBoom).engine =
        (Shutdown engineFail backgroundCtx boomErr.msg).engine
    ∧ (∀ modName s, engineFail.serviceMap.find?
          (fun p => p.2.id = svcFailedBoom.id) = some (modName, s) →
        moduleLogFor engineFail.serviceMap svcFailedBoom =
          (if boomErr = errStopProcess then
            ⟨LogLevel.info, "Received stop signal via return error", modName⟩
          else ⟨LogLevel.error, "Module failed", modName⟩))
    ∧ (engineFail.serviceMap.find? (fun p => p.2.id = svcFailedBoom.id) = none →
        moduleLogFor engineFail.serviceMap svcFailedBoom =
          ⟨LogLevel.error, "Module failed", "unknown"⟩)
    ∧ (∀ l, (listenerFailure engineFail svcFailedBoom).logs = some l →
        moduleLogFor engineFail.serviceMap svcFailedBoom ∈ l) :=
  C3_listener_failure engineFail svcFailedBoom boomErr rfl

/-- C4: the await step inside Run uses the never-canceled background
context, so it never returns an error (it either returns nil or keeps
waiting forever), while a Shutdown call's bounded context that expires
before the services stop yields the deadline error to its caller — that
timeout never becomes the result of Run's await. -/
theorem C4_run_await_unbounded (m : SvcManager) (d : Nat) :
    (∀ err : Err, runAwaitStep m ≠ some (some err))
    ∧ (m.allStoppedAt = none →
        awaitStoppedRes ⟨some d⟩ m = some (some ctxDeadlineExceeded)
        ∧ runAwaitStep m = none)
    ∧ (∀ t, m.allStoppedAt = some t → d < t →
        awaitStoppedRes ⟨some d⟩ m = some (some ctxDeadlineExceeded)
        ∧ runAwaitStep m = some none) := by
  refine ⟨?_, ?_, ?_⟩
  · intro err
    cases h : m.allStoppedAt <;> simp [runAwaitStep, awaitStoppedRes, backgroundCtx, h]
  · intro h
    simp [runAwaitStep, awaitStoppedRes, backgroundCtx, h]
  · intro t ht hd
    simp [runAwaitStep, awaitStoppedRes, backgroundCtx, ht, hd]

/-- C5: when target resolution yields an empty service set, Run returns
nil immediately: no factory is invoked, no service manager is
constructed, no listener is attached, and no service is started. -/
theorem C5_run_empty (e : EngineSt) (ctx : Ctx) (exec : List Svc → SvcManager)
    (reg2 : Registry)
    (hw : wireDependencies e.moduleManager dependencyMap = Except.ok reg2)
    (hres : resolveTargets reg2 e.targets = Except.ok []) :
    RunM e ctx exec = ⟨some none, { e with moduleManager := reg2, serviceMap := [] },
      [], false, false, false⟩ := by
  have hinit : initModuleServices reg2 e.targets = Except.ok [] := by
    simp [initModuleServices, hres, invokeFactories]
  simp [RunM, hw, hinit]

/-- Witness for C5: a fresh engine with an empty target list. -/
theorem C5_run_empty_witness :
    RunM (engineNew []) backgroundCtx (execStopsAt 0) =
      ⟨some none, { engineNew [] with moduleManager := [], serviceMap := [] },
        [], false, false, false⟩ :=
  C5_run_empty (engineNew []) backgroundCtx (execStopsAt 0) [] rfl rfl

/-- C6: Run's dependency-wiring step registers the edges of every entry of
the static dependency table exactly when the entry's module is currently
registered; entries whose module is unregistered are skipped without
producing an error and without registering anything. -/
theorem C6_dependency_wiring (reg : Registry) :
    ∃ reg2, wireDependencies reg dependencyMap = Except.ok reg2
      ∧ ∀ modName ds, (modName, ds) ∈ dependencyMap →
          (isModuleRegistered reg modName = true →
            depsOf reg2 modName = depsOf reg modName ++ ds)
          ∧ (isModuleRegistered reg modName = false →
            isModuleRegistered reg2 modName = false
            ∧ depsOf reg2 modName = depsOf reg modName) := by
  obtain ⟨reg2, hok, hpres, hisreg, hdeps⟩ :=
    wireDependencies_spec dependencyMap reg (by decide)
  refine ⟨reg2, hok, ?_⟩
  intro modName ds hmem
  refine ⟨hdeps modName ds hmem, ?_⟩
  intro hnreg
  have h2 : isModuleRegistered reg2 modName = false := by
    rw [hisreg]
    exact hnreg
  refine ⟨h2, ?_⟩
  have hl2 : reg2.lookup modName = none := lookup_none_of_not_registered reg2 modName h2
  have hl : reg.lookup modName = none := lookup_none_of_not_registered reg modName hnreg
  simp [depsOf, hl2, hl]

/-- C7: IsModuleEnabled is a pure lookup against the original target list;
a module that is only part of the resolved closure but not of the target
list is not reported as enabled. -/
theorem C7_is_module_enabled (e : EngineSt) (n : String) :
    (IsModuleEnabled e n = true ↔ n ∈ e.targets)
    ∧ (∀ reg names, resolveTargets reg e.targets = Except.ok names →
        n ∈ names → n ∉ e.targets → IsModuleEnabled e n = false) := by
  have h1 : IsModuleEnabled e n = true ↔ n ∈ e.targets :=
    stringsContain_iff e.targets n
  refine ⟨h1, ?_⟩
  intro reg names hres hn hnot
  cases hb : IsModuleEnabled e n
  · rfl
  · exact absurd (h1.mp hb) hnot

/-- C8 counterexample: per the spec's contract a second registration of
the name core must fail with DuplicateModuleError, but the code's
registration has no error path and the duplicate silently overwrites the
earlier entry. -/
theorem C8_counterexample :
    registerSpec regOne ("core") (Except.ok svcB) true =
        Except.error duplicateModuleError
    ∧ (RegisterModule (RegisterModule (engineNew []) ("core") (Except.ok svcA))
        ("core") (Except.ok svcB)).moduleManager =
        [(("core"), ⟨Except.ok svcB, true, []⟩)] :=
  ⟨rfl, rfl⟩

/-- C8 as amended: registering a module under an already-registered name
does not fail — the registration surface returns no error; the underlying
map assignment replaces the existing entry (the last registration wins,
the entry count is unchanged), so uniqueness is not enforced at
registration time. -/
theorem C8_register_amended (reg : Registry) (n : String) (fn : Except Err Svc)
    (hreg : isModuleRegistered reg n = true) :
    (registerModuleRaw reg n fn true).lookup n = some ⟨fn, true, []⟩
    ∧ (registerModuleRaw reg n fn true).length = reg.length
    ∧ ∀ e : EngineSt, (RegisterModule e n fn).moduleManager =
        registerModuleRaw e.moduleManager n fn true :=
  ⟨lookup_mapSet_self reg n ⟨fn, true, []⟩,
   mapSet_length reg n ⟨fn, true, []⟩ hreg,
   fun _ => rfl⟩

/-- Witness for the amended C8 at a one-entry registry. -/
theorem C8_register_amended_witness :
    (registerModuleRaw regOne ("core") (Except.ok svcB) true).lookup ("core") =
        some ⟨Except.ok svcB, true, []⟩
    ∧ (registerModuleRaw regOne ("core") (Except.ok svcB) true).length = regOne.length
    ∧ ∀ e : EngineSt, (RegisterModule e ("core") (Except.ok svcB)).moduleManager =
        registerModuleRaw e.moduleManager ("core") (Except.ok svcB) true :=
  C8_register_amended regOne ("core") (Except.ok svcB) rfl

/-- C9: the static dependency table is acyclic — for every subset of
module names, the edges of the table restricted to that subset admit no
cyclic chain. -/
theorem C9_dependency_table_acyclic (S : List String) (a : String) :
    DepPath (restrictedEdge S) a a ↔ False := by
  constructor
  · intro h
    have hE : ∀ x y, restrictedEdge S x y → moduleRank y < moduleRank x :=
      fun x y hxy => edgeIn_rank_lt x y hxy.2.2
    exact absurd (depPath_rank_lt (restrictedEdge S) hE a a h) (lt_irrefl _)
  · intro hf
    exact hf.elim

/-- C10: the listener's failure callback invokes Shutdown with the
never-canceled background context, whose await never yields the deadline
error — only a bounded context supplied by an external Shutdown caller
can time out. -/
theorem C10_failure_shutdown_unbounded (e : EngineSt) (svc : Svc)
    (m : SvcManager) (d : Nat) :
    (listenerFailure e svc).shutdownCtx = backgroundCtx
    ∧ backgroundCtx.deadline = none
    ∧ (∀ err : Err, awaitStoppedRes backgroundCtx m ≠ some (some err))
    ∧ (e.serviceManager = some m →
        (Shutdown e backgroundCtx (errText svc.failureCase)).res ≠
          some (some ctxDeadlineExceeded))
    ∧ (m.allStoppedAt = none →
        awaitStoppedRes ⟨some d⟩ m = some (some ctxDeadlineExceeded)) := by
  refine ⟨listenerFailure_ctx e svc, rfl, ?_, ?_, ?_⟩
  · intro err
    cases h : m.allStoppedAt <;> simp [awaitStoppedRes, backgroundCtx, h]
  · intro hm
    obtain ⟨t, mm, sm, smap⟩ := e
    simp only at hm
    subst hm
    simp only [Shutdown]
    cases h : (stopAll m).allStoppedAt <;>
      simp [awaitStoppedRes, backgroundCtx, h]
  · intro h
    simp [awaitStoppedRes, h]

end GrafanaModules
